import Mathlib

/-!
Verification development for the outline-extraction and document-intelligence
pipeline (r1a_outline_extractor.py and r1b_document_intelligence.py).

Shallow embedding conventions:
- Python floats (font sizes, relevance scores) are modelled as exact rationals.
  The only float-sensitive spot, the noise threshold, is discussed at
  junkThreshold below.
- Python strings are Lean Strings; character-level operations work on the
  underlying character lists.
- External collaborators (the langdetect classifier, the wordninja splitter,
  the IndicNLP tokenizer, pdfplumber raw tables, the sentence embedder) are
  parameters gathered in the Env structure; the repository code wrapping them
  is embedded faithfully on top of those parameters.
-/

set_option maxHeartbeats 1000000

namespace Pipeline

/-! Python string helpers shared by both modules.  They are written over the
underlying character lists with structural recursion so that concrete runs
reduce inside the kernel. -/

/-- Split on whitespace runs, dropping empty pieces (the helper carries the
current word reversed). -/
def splitWsAux : List Char → List Char → List String
  | [], acc => if acc.isEmpty then [] else [String.mk acc.reverse]
  | c :: rest, acc =>
    if c.isWhitespace then
      if acc.isEmpty then splitWsAux rest []
      else String.mk acc.reverse :: splitWsAux rest []
    else splitWsAux rest (c :: acc)

/-- Embedding of Python str.strip (both-ends whitespace removal). -/
def pyStrip (s : String) : String :=
  String.mk (((s.data.dropWhile Char.isWhitespace).reverse.dropWhile Char.isWhitespace).reverse)

/-- Embedding of Python str.lower for the character classes in play. -/
def pyLower (s : String) : String :=
  String.mk (s.data.map Char.toLower)

/-- Embedding of clean_text: re.sub whitespace-runs to a single space, then
strip.  Equivalently: split on whitespace, drop empty pieces, rejoin with
single spaces. -/
def clean_text (s : String) : String :=
  " ".intercalate (splitWsAux s.data [])

/-- Embedding of Python str.find restricted to its found/not-found content:
returns the first index at which needle occurs in hay, none when absent
(Python returns -1 there; every use site immediately maps -1 to an anchor). -/
def findSubAux (needle : List Char) : List Char → Option Nat
  | [] => if needle.isPrefixOf ([] : List Char) then some 0 else none
  | c :: rest =>
    if needle.isPrefixOf (c :: rest) then some 0
    else (findSubAux needle rest).map (fun n => n + 1)

def pyFind (hay needle : String) : Option Nat :=
  findSubAux needle.data hay.data

/-- Embedding of the Python "in" substring test. -/
def pyContains (hay needle : String) : Bool :=
  (pyFind hay needle).isSome

/-- Embedding of the Python slice s[a:b] for 0 ≤ a ≤ b. -/
def pySlice (s : String) (a b : Nat) : String :=
  String.mk ((s.data.drop a).take (b - a))

/-- Embedding of Python str.isupper for the character classes in play:
at least one cased character, and no lowercase character. -/
def pyIsUpper (s : String) : Bool :=
  s.data.any (fun c => c.isUpper || c.isLower) && s.data.all (fun c => !c.isLower)

/-- Embedding of is_all_caps. -/
def is_all_caps (text : String) : Bool :=
  pyIsUpper text && decide (2 < text.length) && text.data.any Char.isAlpha

/-- Embedding of is_bold (the span argument is represented by its font
string, the only field the source reads). -/
def is_bold (font : String) : Bool :=
  pyContains (pyLower font) "bold" || pyContains (pyLower font) "bld"

/-! Rational comparisons with integer scale factors.  The source compares
float font sizes against constant multiples (1.1, 1.2, 0.95) of other sizes;
the embedding clears denominators so the comparisons are integer
arithmetic that reduces inside the kernel.  The bridging lemmas qscaleLt_iff
and qscaleLe_iff restate them as the corresponding exact rational
comparisons (for sizes far from the decision boundary, as in every claim
input, binary-float evaluation agrees with the exact comparison). -/

/-- Decision of the scaled comparison p·a < q·b over ℚ via cross
multiplication with the (positive) denominators. -/
def qscaleLt (p : Int) (a : ℚ) (q : Int) (b : ℚ) : Bool :=
  decide (p * a.num * (b.den : Int) < q * b.num * (a.den : Int))

/-- Decision of p·a ≤ q·b over ℚ via cross multiplication. -/
def qscaleLe (p : Int) (a : ℚ) (q : Int) (b : ℚ) : Bool :=
  decide (p * a.num * (b.den : Int) ≤ q * b.num * (a.den : Int))

theorem rat_mul_den (a : ℚ) : a * ((a.den : ℚ)) = ((a.num : ℚ)) := by
  nth_rewrite 1 [← Rat.num_div_den a]
  rw [div_mul_cancel₀]
  exact_mod_cast a.den_ne_zero

theorem qscale_cast (p : Int) (a b : ℚ) :
    (p : ℚ) * a * ((a.den : ℚ) * (b.den : ℚ)) = ((p * a.num * b.den : Int) : ℚ) := by
  rw [show (p : ℚ) * a * ((a.den : ℚ) * (b.den : ℚ))
      = (p : ℚ) * (a * (a.den : ℚ)) * (b.den : ℚ) by ring, rat_mul_den]
  push_cast
  ring

theorem qscaleLt_iff (p q : Int) (a b : ℚ) :
    qscaleLt p a q b = true ↔ (p : ℚ) * a < (q : ℚ) * b := by
  have hd : (0 : ℚ) < (a.den : ℚ) * (b.den : ℚ) := by positivity
  have key : ((p : ℚ) * a < (q : ℚ) * b) ↔
      (p : ℚ) * a * ((a.den : ℚ) * (b.den : ℚ)) < (q : ℚ) * b * ((a.den : ℚ) * (b.den : ℚ)) :=
    (mul_lt_mul_right hd).symm
  have e2 : (q : ℚ) * b * ((a.den : ℚ) * (b.den : ℚ)) = ((q * b.num * a.den : Int) : ℚ) := by
    rw [show (a.den : ℚ) * (b.den : ℚ) = (b.den : ℚ) * (a.den : ℚ) by ring]
    exact qscale_cast q b a
  rw [qscaleLt, decide_eq_true_eq, key, qscale_cast, e2, Int.cast_lt]

theorem qscaleLe_iff (p q : Int) (a b : ℚ) :
    qscaleLe p a q b = true ↔ (p : ℚ) * a ≤ (q : ℚ) * b := by
  have hd : (0 : ℚ) < (a.den : ℚ) * (b.den : ℚ) := by positivity
  have key : ((p : ℚ) * a ≤ (q : ℚ) * b) ↔
      (p : ℚ) * a * ((a.den : ℚ) * (b.den : ℚ)) ≤ (q : ℚ) * b * ((a.den : ℚ) * (b.den : ℚ)) :=
    (mul_le_mul_right hd).symm
  have e2 : (q : ℚ) * b * ((a.den : ℚ) * (b.den : ℚ)) = ((q * b.num * a.den : Int) : ℚ) := by
    rw [show (a.den : ℚ) * (b.den : ℚ) = (b.den : ℚ) * (a.den : ℚ) by ring]
    exact qscale_cast q b a
  rw [qscaleLe, decide_eq_true_eq, key, qscale_cast, e2, Int.cast_le]

/-- Language codes the pipeline keeps distinct. -/
inductive Lang
  | en
  | hi
  | mr
deriving DecidableEq

/-- Language-keyed mapping of normalized strings (a Python dict whose keys
range over the closed set of language codes). -/
structure LocalizedText where
  en : Option String := none
  hi : Option String := none
  mr : Option String := none
deriving DecidableEq

def LocalizedText.get (t : LocalizedText) : Lang → Option String
  | Lang.en => t.en
  | Lang.hi => t.hi
  | Lang.mr => t.mr

def LocalizedText.set (t : LocalizedText) : Lang → String → LocalizedText
  | Lang.en, v => { t with en := some v }
  | Lang.hi, v => { t with hi := some v }
  | Lang.mr, v => { t with mr := some v }

def LocalizedText.single (lang : Lang) (v : String) : LocalizedText :=
  LocalizedText.set {} lang v

/-- Values of the mapping in fixed language order (models Python dict
.values(); the source only ever inserts in this iteration order). -/
def LocalizedText.values (t : LocalizedText) : List String :=
  [t.en, t.hi, t.mr].filterMap id

/-- Cells of a pdfplumber raw table row: None or a string. -/
abbrev PyCell := Option String
abbrev PyRow := List PyCell
abbrev PyTable := List PyRow

/-- External collaborators of the core. -/
structure Env where
  /-- Raw langdetect.detect: a language code, or none when it raises. -/
  detectRaw : String → Option String
  /-- wordninja.split. -/
  wnSplit : String → List String
  /-- Whether the IndicNLP tokenizer imported. -/
  indicAvailable : Bool
  /-- indic_tokenize.trivial_tokenize. -/
  indicTokenize : String → Lang → List String
  /-- Raw pdfplumber table extraction output per page; error when it raises
  (the source then degrades to an empty table list). -/
  rawTables : Except Unit (List (List PyTable))

/-- Embedding of detect_language: keep hi/mr/en, default anything else
(including a raised exception) to en. -/
def detect_language (env : Env) (text : String) : Lang :=
  match env.detectRaw text with
  | some l => if l = "hi" then Lang.hi else if l = "mr" then Lang.mr else Lang.en
  | none => Lang.en

/-- Embedding of clean_english: pass trimmed text through unchanged when it
is empty or already contains a space, otherwise split stuck-together words. -/
def clean_english (env : Env) (text : String) : String :=
  if text = "" || text.data.contains ' ' then pyStrip text
  else pyStrip (" ".intercalate (env.wnSplit text))

/-- Characters of the regex class in clean_indic's fallback branch (the
source literal is mojibake of a Devanagari danda, giving these three
Cyrillic letters plus the listed punctuation). -/
def indicPunctClass : List Char :=
  ['р', 'е', 'д', ',', '.', '!', '?']

def insertSpaceAfterPunct (s : String) : String :=
  String.mk ((s.data.map (fun c =>
    if c ∈ indicPunctClass then [c, ' '] else [c])).flatten)

/-- Left-to-right non-overlapping replacement of a non-empty pattern, the
semantics of Python str.replace; the Nat argument is fuel bounded below by
the list length, keeping the recursion structural. -/
def replaceFuel (pat rep : List Char) : Nat → List Char → List Char
  | 0, l => l
  | _ + 1, [] => []
  | n + 1, c :: rest =>
    if pat ≠ [] && pat.isPrefixOf (c :: rest) then
      rep ++ replaceFuel pat rep n (List.drop (pat.length - 1) rest)
    else c :: replaceFuel pat rep n rest

/-- Embedding of Python str.replace for non-empty patterns. -/
def pyReplace (s pat rep : String) : String :=
  String.mk (replaceFuel pat.data rep.data s.data.length s.data)

/-- Embedding of clean_indic. -/
def clean_indic (env : Env) (text : String) (lang : Lang) : String :=
  if env.indicAvailable && (lang = Lang.hi || lang = Lang.mr) then
    pyStrip (pyReplace (" ".intercalate (env.indicTokenize text lang))
      (String.mk [' ', 'р', 'е', 'д'])
      (String.mk ['р', 'е', 'д']))
  else pyStrip (pyReplace (insertSpaceAfterPunct text) "  " " ")

/-- Embedding of text_has_invalid_devanagari (no character in U+0900-U+097F).
The source's pdfplumber fallback that consumes the resulting flag is elided
in the repository, so the flag is dead there. -/
def text_has_invalid_devanagari (text : String) : Bool :=
  !(text.data.any (fun c => 'ऀ' ≤ c && c ≤ 'ॿ'))

/-! Layout-provider data model (PyMuPDF get_text dict output). -/

/-- A raw text run as delivered by the layout provider. -/
structure RawSpan where
  text : String
  size : ℚ
  font : String
  origin : ℚ × ℚ
  bbox : ℚ × ℚ × ℚ × ℚ
deriving DecidableEq

/-- One block of a page's layout dictionary; only blocks with btype 0 carry
text lines. -/
structure Block where
  btype : Int
  lines : List (List RawSpan)
deriving DecidableEq

/-- Per-page span extraction either yields the block list (some) or raises
(none; the source logs and skips such a page). -/
abbrev PageResult := Option (List Block)

/-- An opened document: its ordered pages. -/
structure Doc where
  pages : List PageResult
deriving DecidableEq

/-- The span_info record the collector builds per non-empty cleaned span. -/
structure SpanInfo where
  text : String
  size : ℚ
  font : String
  is_bold : Bool
  origin : ℚ × ℚ
  bbox : ℚ × ℚ × ℚ × ℚ
  page : Nat
  is_heading_candidate : Bool
deriving DecidableEq

/-- Spans contributed by one page (1-based page number), in layout order:
type-0 blocks, their lines, their spans; empty cleaned text is dropped. -/
def spansOfPage (pageNum : Nat) (blocks : List Block) : List SpanInfo :=
  (((blocks.filter (fun b => b.btype = 0)).map (fun b => b.lines.flatten)).flatten).filterMap
    (fun sp =>
      let t := clean_text sp.text
      if t = "" then none
      else some { text := t, size := sp.size, font := sp.font,
                  is_bold := is_bold sp.font, origin := sp.origin,
                  bbox := sp.bbox, page := pageNum,
                  is_heading_candidate := false })

/-- Embedding of the span-collection loop of extract_document_info: pages in
order, unreadable pages skipped. -/
def collectSpans (doc : Doc) : List SpanInfo :=
  (doc.pages.enum.map (fun pr =>
    match pr.2 with
    | none => []
    | some blocks => spansOfPage (pr.1 + 1) blocks)).flatten

/-! Noise filter (detect_junk_candidates). -/

/-- Grouping of cleaned span texts by page: one group per distinct page
value, holding that page's cleaned texts in span order.  Models the
setdefault/append grouping of the source (group order is irrelevant to the
counts taken below, so the dedup order stands in for first-seen order). -/
def pageTextsGroups (spans : List SpanInfo) : List (Nat × List String) :=
  ((spans.map (fun s => s.page)).dedup).map
    (fun p => (p, (spans.filter (fun s => s.page = p)).map (fun s => clean_text s.text)))

/-- Counter built from the per-page distinct-string sets: the number of page
groups whose text set contains t. -/
def junkFreq (spans : List SpanInfo) (t : String) : Nat :=
  (pageTextsGroups spans).countP (fun g => decide (t ∈ g.2))

/-- Embedding of max(2, int(num_pages * 0.6)).  Python's int() truncates the
float product toward zero; for page counts far below the 2^53 float range the
product only crosses an integer boundary when num_pages is a multiple of 5,
where the double rounds to the exact integer, so truncation agrees with the
exact rational floor used here. -/
def junkThreshold (num_pages : Nat) : Nat :=
  max 2 ((3 * num_pages) / 5)

/-- Membership test of the junk set built by detect_junk_candidates (the
Python set is represented by its membership predicate). -/
def detect_junk_candidates (spans : List SpanInfo) (num_pages : Nat) (t : String) : Bool :=
  decide (junkThreshold num_pages ≤ junkFreq spans t)
    && decide (0 < t.length) && decide (t.length < 80)

/-! Median body font size. -/

/-- Sizes collected into body_font_sizes: spans (with non-empty cleaned text)
whose size lies in the closed band 8..14. -/
def bodyFontSizes (spans : List SpanInfo) : List ℚ :=
  (spans.filter (fun s => decide (8 ≤ s.size) && decide (s.size ≤ 14))).map (fun s => s.size)

/-- Embedding of the median computation: element len/2 of the ascending sort
when the band is non-empty, else the default 12. -/
def medianBodyFontSize (sizes : List ℚ) : ℚ :=
  if sizes.isEmpty then 12
  else (sizes.insertionSort (fun a b => a ≤ b)).getD (sizes.length / 2) 0

/-! Title inference. -/

/-- Fold tracking the largest size seen and all texts at exactly that size,
starting from size 0 (the source's largest_font_size/title_candidates loop). -/
def titleScan (spans : List SpanInfo) : ℚ × List String :=
  spans.foldl (fun acc s =>
    if acc.1 < s.size then (s.size, [s.text])
    else if s.size = acc.1 then (acc.1, acc.2 ++ [s.text])
    else acc) (0, [])

/-- Per-candidate language detection and normalization into the title
mapping.  The source iterates the Python set of candidates in unspecified
order; the model iterates the deduplicated list (when two distinct candidate
strings detect to the same language, the surviving entry is
order-dependent in the source as well). -/
def buildTitle (env : Env) (cands : List String) : LocalizedText :=
  cands.dedup.foldl (fun t c =>
    let lang := detect_language env c
    if lang = Lang.en then t.set lang (clean_english env c)
    else t.set lang (clean_indic env c lang)) {}

/-! Heading detection and leveling. -/

inductive HLevel
  | H1
  | H2
  | H3
deriving DecidableEq

/-- A flagged heading candidate awaiting level assignment (the source's
record with level still None). -/
structure PendingHeading where
  text : LocalizedText
  page : Nat
  size : ℚ
deriving DecidableEq

/-- A heading after level assignment, size still attached. -/
structure LeveledHeading where
  level : HLevel
  text : LocalizedText
  page : Nat
  size : ℚ
deriving DecidableEq

/-- A deduplicated outline entry (size dropped). -/
structure HeadingEntry where
  level : HLevel
  text : LocalizedText
  page : Nat
deriving DecidableEq

/-- Bullet glyphs of the list-marker regex (besides decimal digits). -/
def bulletChars : List Char :=
  ['•', '‣', '◦', '⁃', '∙', '-', '*']

/-- Match of the list-marker regex against the start of the stripped
next-span text. -/
def startsWithListMarker (s : String) : Bool :=
  match (pyStrip s).data with
  | [] => false
  | c :: _ => bulletChars.contains c || c.isDigit

/-- Heading heuristics for the span at index i of its page, given the next
span of that page when one exists. -/
def isHeadingSpan (median : ℚ) (i : Nat) (s : SpanInfo) (next : Option SpanInfo) : Bool :=
  let base :=
    if s.is_bold && qscaleLt 11 median 10 s.size then true
    else if qscaleLt 12 median 10 s.size && decide (i = 0) then true
    else if is_all_caps s.text && decide (median ≤ s.size) then true
    else false
  if base then true
  else
    match next with
    | some n => startsWithListMarker n.text
    | none => false

/-- Per-page scan of the heading-detection loop, carrying the span index. -/
def headingScan (env : Env) (junk : String → Bool) (median : ℚ) (pageNum : Nat) :
    Nat → List SpanInfo → List PendingHeading
  | _, [] => []
  | i, s :: rest =>
    let tail := headingScan env junk median pageNum (i + 1) rest
    if junk s.text || decide (s.text.length < 2) then tail
    else if isHeadingSpan median i s rest.head? then
      let lang := detect_language env s.text
      let ct := if lang = Lang.en then clean_english env s.text
                else clean_indic env s.text lang
      { text := LocalizedText.single lang ct, page := pageNum, size := s.size } :: tail
    else tail

/-- Embedding of the heading-detection stage: pages 1..num_pages in order,
each scanned over the spans collected for that page. -/
def detectHeadings (env : Env) (junk : String → Bool) (median : ℚ)
    (numPages : Nat) (spans : List SpanInfo) : List PendingHeading :=
  ((List.range numPages).map (fun k =>
    headingScan env junk median (k + 1) 0 (spans.filter (fun s => s.page = k + 1)))).flatten

/-- Embedding of the level-assignment stage: distinct candidate sizes sorted
descending; within 5 percent of the largest is H1, of the second-largest is
H2, everything else H3. -/
def assignLevels (hl : List PendingHeading) : List LeveledHeading :=
  if hl.isEmpty then []
  else
    let sizes := ((hl.map (fun h => h.size)).dedup).insertionSort (fun a b => b ≤ a)
    hl.map (fun h =>
      { level :=
          if qscaleLe 95 (sizes.getD 0 0) 100 h.size then HLevel.H1
          else if decide (1 < sizes.length) && qscaleLe 95 (sizes.getD 1 0) 100 h.size then
            HLevel.H2
          else HLevel.H3,
        text := h.text, page := h.page, size := h.size })

/-- Embedding of the final dedup pass keyed on (level, text items, page),
preserving first-seen order. -/
def dedupOutline : List LeveledHeading → List (HLevel × LocalizedText × Nat) → List HeadingEntry
  | [], _ => []
  | h :: rest, seen =>
    let key := (h.level, h.text, h.page)
    if seen.contains key then dedupOutline rest seen
    else { level := h.level, text := h.text, page := h.page } :: dedupOutline rest (key :: seen)

/-! Table extraction (thin processing over the pdfplumber capability). -/

/-- One merged table: page, detected header language, cleaned column names,
and the retained data rows. -/
structure Table where
  page : Nat
  headerLang : Lang
  headers : List String
  data : List PyRow
deriving DecidableEq

/-- Python truthiness of a cell: not None and not the empty string. -/
def truthyCell : PyCell → Bool
  | none => false
  | some s => decide (s ≠ "")

/-- Embedding of extract_tables; a raised pdfplumber run degrades to the
empty list (the model collapses mid-run failure to full failure, the only
shape the claims consume). -/
def extract_tables (env : Env) : List Table :=
  match env.rawTables with
  | Except.error _ => []
  | Except.ok pages =>
    ((pages.enum.map (fun pi =>
      pi.2.filterMap (fun table =>
        match table with
        | [] => none
        | hdr :: rows =>
          if hdr.length ≤ 1 then none
          else
            let columns0 := (hdr.filter truthyCell).map (fun c => clean_text (c.getD ""))
            let lang := detect_language env (" ".intercalate columns0)
            let columns :=
              if lang = Lang.en then columns0.map (clean_english env)
              else columns0.map (fun c => clean_indic env c lang)
            let data := rows.filter (fun row => row.any truthyCell)
            if columns.isEmpty then none
            else some { page := pi.1 + 1, headerLang := lang,
                        headers := columns, data := data })))).flatten

/-! Whole-document extraction. -/

/-- The structural artifact produced per document. -/
structure Outline where
  title : LocalizedText
  outline : List HeadingEntry
  tables : List Table
deriving DecidableEq

def emptyOutline : Outline :=
  { title := {}, outline := [], tables := [] }

/-- Embedding of extract_document_info.  The opened argument is none when
the layout provider cannot open the input (fitz.open raises). -/
def extract_document_info (env : Env) (opened : Option Doc) : Outline :=
  match opened with
  | none => emptyOutline
  | some doc =>
    let num_pages := doc.pages.length
    let all_text_spans := collectSpans doc
    let median := medianBodyFontSize (bodyFontSizes all_text_spans)
    let junkP := fun t => detect_junk_candidates all_text_spans num_pages t
    let page_0_spans := all_text_spans.filter (fun s => decide (s.page = 1) && !(junkP s.text))
    let title := buildTitle env (titleScan page_0_spans).2
    let heading_outline := detectHeadings env junkP median num_pages all_text_spans
    let final_outline := dedupOutline (assignLevels heading_outline) []
    { title := title, outline := final_outline, tables := extract_tables env }

/-! Relevance ranker (r1b_document_intelligence.py). -/

/-- An outline entry as consumed by the ranker: its page and either the
multilingual text mapping produced by r1a or a legacy single string. -/
inductive TitleVal
  | multi (t : LocalizedText)
  | single (s : String)
deriving DecidableEq

structure R1BEntry where
  page : Nat
  text : TitleVal
deriving DecidableEq

/-- Embedding of is_relevant_section: case-insensitive containment of some
keyword. -/
def is_relevant_section (text : String) (keywords : List String) : Bool :=
  keywords.any (fun kw => pyContains (pyLower text) kw)

/-- The source's compiled-in keyword list. -/
def default_keywords : List String :=
  ["gnn", "drug discovery", "molecular", "neural", "biology"]

/-- The source's compiled-in gate switch: keyword filtering is off by
default. -/
def ENABLE_KEYWORD_FILTER : Bool := false

/-- Lookup of a page's raw text, defaulting to the empty string when the
1-based page number exceeds the page list (entries produced by r1a always
carry a page number of at least 1, matching the source's non-negative
index). -/
def pageTextAt (pageTexts : List String) (page_num : Nat) : String :=
  if page_num - 1 < pageTexts.length then pageTexts.getD (page_num - 1) "" else ""

/-- The language admission test of the multilingual branch: the page's
detected language equals the entry's language, or the language is en. -/
def langGate (env : Env) (page_text : String) (lang : Lang) : Bool :=
  decide (detect_language env page_text = lang) || decide (lang = Lang.en)

/-- Anchor-and-slice: find the title in the page text (anchor 0 when
absent), take 200 characters from the anchor, strip. -/
def excerptAt (page_text title_text : String) : String :=
  let idx := (pyFind page_text title_text).getD 0
  pyStrip (pySlice page_text idx (idx + 200))

/-- Per-language excerpt of the multilingual branch: none when the page text
is empty, the language gate fails, or the stripped excerpt is empty. -/
def excerptFor (env : Env) (page_text : String) (lang : Lang) (title_text : String) :
    Option String :=
  if page_text = "" then none
  else if langGate env page_text lang then
    let para := excerptAt page_text title_text
    if para = "" then none else some para
  else none

/-- Embedding of the section_title_dict/refined_text_dict construction for
one outline entry (both isinstance branches). -/
def entryDicts (env : Env) (pageTexts : List String) (e : R1BEntry) :
    LocalizedText × LocalizedText :=
  match e.text with
  | TitleVal.multi t =>
    [Lang.en, Lang.hi, Lang.mr].foldl (fun acc lang =>
      match t.get lang with
      | none => acc
      | some title_text =>
        match excerptFor env (pageTextAt pageTexts e.page) lang title_text with
        | none => acc
        | some para => (acc.1.set lang title_text, acc.2.set lang para)) ({}, {})
  | TitleVal.single s =>
    let pt := pageTextAt pageTexts e.page
    if pt = "" then ({}, {})
    else
      let lang := detect_language env pt
      let para := excerptAt pt s
      if para = "" then ({}, {})
      else (LocalizedText.single lang s, LocalizedText.single lang para)

/-- A retained ranking-stage section. -/
structure Section where
  document : String
  page_number : Nat
  section_title : LocalizedText
  refined_text : LocalizedText
deriving DecidableEq

/-- Embedding of the per-entry body of the section-collection loop: build
the dicts, apply the optional keyword gate, drop the entry when no language
yielded an excerpt, otherwise record the section. -/
def processEntry (env : Env) (kwEnabled : Bool) (keywords : List String)
    (pageTexts : List String) (docName : String) (e : R1BEntry) : Option Section :=
  let d := entryDicts env pageTexts e
  if kwEnabled && !(is_relevant_section (" ".intercalate d.2.values) keywords) then none
  else if d.2.values.isEmpty then none
  else some { document := docName, page_number := e.page,
              section_title := d.1, refined_text := d.2 }

/-- Sections contributed by one document's outline, in outline order. -/
def docSections (env : Env) (kwEnabled : Bool) (keywords : List String)
    (pageTexts : List String) (docName : String) (outline : List R1BEntry) : List Section :=
  outline.filterMap (processEntry env kwEnabled keywords pageTexts docName)

/-- A section with its query-similarity score attached (the embedder is
external; scores are carried as exact values). -/
structure ScoredSection where
  document : String
  page_number : Nat
  section_title : LocalizedText
  refined_text : LocalizedText
  relevance_score : ℚ
deriving DecidableEq

/-- Concatenated title and excerpt texts fed to the embedder. -/
def section_text (s : Section) : String :=
  " ".intercalate (s.section_title.values ++ s.refined_text.values)

def scoreSections (embedScore : String → ℚ) (l : List Section) : List ScoredSection :=
  l.map (fun s =>
    { document := s.document, page_number := s.page_number,
      section_title := s.section_title, refined_text := s.refined_text,
      relevance_score := embedScore (section_text s) })

/-- Embedding of the final sort: Python's sorted is a stable sort, and a
stable descending sort is exactly insertion sort under the
score-greater-or-equal relation (theorem c5_ranking_stable proves the
characterizing properties: sortedness, permutation, tie stability). -/
def rankSections (l : List ScoredSection) : List ScoredSection :=
  l.insertionSort (fun a b => b.relevance_score ≤ a.relevance_score)

structure OutputSection where
  document : String
  page_number : Nat
  section_title : LocalizedText
  importance_rank : Nat
deriving DecidableEq

structure SubSection where
  document : String
  page_number : Nat
  refined_text : LocalizedText
deriving DecidableEq

/-- Embedding of the output loop: both lists are built index-for-index from
the ranked sections, ranks starting at 1. -/
def buildOutputs (ranked : List ScoredSection) : List OutputSection × List SubSection :=
  (ranked.enum.map (fun p =>
    { document := p.2.document, page_number := p.2.page_number,
      section_title := p.2.section_title, importance_rank := p.1 + 1 }),
   ranked.map (fun s =>
    { document := s.document, page_number := s.page_number,
      refined_text := s.refined_text }))

/-! Concrete fixtures used by witnesses and counterexamples. -/

/-- A concrete environment: language detection always fails over to en, the
word splitter keeps tokens whole, IndicNLP is unavailable, pdfplumber
returns no tables. -/
def env0 : Env :=
  { detectRaw := fun _ => none
    wnSplit := fun s => [s]
    indicAvailable := false
    indicTokenize := fun _ _ => []
    rawTables := Except.ok [] }

def mkSpan (t : String) (sz : ℚ) (f : String) : RawSpan :=
  { text := t, size := sz, font := f, origin := (0, 0), bbox := (0, 0, 0, 0) }

/-- A single-line page of spans. -/
def pg (spans : List RawSpan) : PageResult :=
  some [{ btype := 0, lines := [spans] }]

/-- The Scenario 1 document: one page, a bold size-18 INTRODUCTION span and
a size-11 body span. -/
def c2doc : Doc :=
  { pages := [some [{ btype := 0
                      lines := [[mkSpan "INTRODUCTION" 18 "Helvetica-Bold"],
                                [mkSpan "This is body text." 11 "Helvetica"]] }]] }

/-- A six-page document whose string Hdr recurs on exactly three pages. -/
def c1doc : Doc :=
  { pages :=
      [pg [mkSpan "Hdr" 10 "F", mkSpan "alpha one" 10 "F"],
       pg [mkSpan "Hdr" 10 "F", mkSpan "beta two" 10 "F"],
       pg [mkSpan "Hdr" 10 "F", mkSpan "gamma three" 10 "F"],
       pg [mkSpan "delta four" 10 "F"],
       pg [mkSpan "epsilon five" 10 "F"],
       pg [mkSpan "zeta six" 10 "F"]] }

/-! Claim C1: the noise-filter membership condition. -/

/-- Specification-side count, defined independently of the Counter loop: the
number of distinct pages carrying a span whose cleaned text is t. -/
def pagesContaining (spans : List SpanInfo) (t : String) : Nat :=
  (((spans.filter (fun s => clean_text s.text = t)).map (fun s => s.page)).dedup).length

theorem junkFreq_eq_pagesContaining (spans : List SpanInfo) (t : String) :
    junkFreq spans t = pagesContaining spans t := by
  unfold junkFreq pageTextsGroups pagesContaining
  rw [List.countP_map, List.countP_eq_length_filter]
  apply List.Perm.length_eq
  rw [List.perm_ext_iff_of_nodup ((List.nodup_dedup _).filter _) (List.nodup_dedup _)]
  intro p
  simp only [List.mem_filter, List.mem_dedup, List.mem_map, List.mem_filter,
    Function.comp_apply, decide_eq_true_eq]
  constructor
  · rintro ⟨-, ⟨s, ⟨hs, hpage⟩, htext⟩⟩
    exact ⟨s, ⟨hs, by simp_all⟩, hpage⟩
  · rintro ⟨s, ⟨hs, htext⟩, hpage⟩
    refine ⟨⟨s, hs, hpage⟩, ⟨s, ⟨hs, ?_⟩, ?_⟩⟩ <;> simp_all

/-- C1 (amended): a cleaned span string is marked noise iff the number of
pages whose distinct-string set contains it is at least
max(2, floor(0.6 × num_pages)) — the source truncates with int(), it does
not take a ceiling — and its length is strictly between 0 and 80. -/
theorem c1_noise_iff (spans : List SpanInfo) (num_pages : Nat) (t : String) :
    detect_junk_candidates spans num_pages t = true ↔
      (max 2 ((3 * num_pages) / 5) ≤ pagesContaining spans t
        ∧ 0 < t.length ∧ t.length < 80) := by
  unfold detect_junk_candidates junkThreshold
  rw [junkFreq_eq_pagesContaining]
  simp [Bool.and_eq_true, decide_eq_true_eq, and_assoc]

/-- C1 counterexample: on a six-page document with the string Hdr on exactly
three pages, the filter marks Hdr as noise although the claimed threshold
ceil(0.6 × 6) = 4 exceeds its page count 3, so the claimed equivalence fails
at this input. -/
theorem c1_counterexample :
    ¬ (detect_junk_candidates (collectSpans c1doc) 6 "Hdr" = true ↔
        (max 2 ((3 * 6 + 4) / 5) ≤ pagesContaining (collectSpans c1doc) "Hdr"
          ∧ 0 < "Hdr".length ∧ "Hdr".length < 80)) := by
  decide

/-! Claim C2: the Scenario 1 one-page document. -/

/-- The collected span_info record of the INTRODUCTION span. -/
def c2spanA : SpanInfo :=
  { text := "INTRODUCTION", size := 18, font := "Helvetica-Bold", is_bold := true,
    origin := (0, 0), bbox := (0, 0, 0, 0), page := 1, is_heading_candidate := false }

/-- The collected span_info record of the body span. -/
def c2spanB : SpanInfo :=
  { text := "This is body text.", size := 11, font := "Helvetica", is_bold := false,
    origin := (0, 0), bbox := (0, 0, 0, 0), page := 1, is_heading_candidate := false }

theorem detectHeadings_c2 (env : Env)
    (hdet : detect_language env "INTRODUCTION" = Lang.en)
    (hclean : clean_english env "INTRODUCTION" = "INTRODUCTION") :
    detectHeadings env (fun t => detect_junk_candidates [c2spanA, c2spanB] 1 t) 11 1
      [c2spanA, c2spanB] =
      [{ text := { en := some "INTRODUCTION" }, page := 1, size := 18 }] := by
  have e1 : detect_junk_candidates [c2spanA, c2spanB] 1 c2spanA.text = false := by decide
  have e2 : decide (c2spanA.text.length < 2) = false := by decide
  have e3 : isHeadingSpan 11 0 c2spanA ([c2spanB].head?) = true := by decide
  have e4 : detect_junk_candidates [c2spanA, c2spanB] 1 c2spanB.text = false := by decide
  have e5 : decide (c2spanB.text.length < 2) = false := by decide
  have e6 : isHeadingSpan 11 1 c2spanB (([] : List SpanInfo).head?) = false := by decide
  have e7 : detect_language env c2spanA.text = Lang.en := hdet
  have e8 : clean_english env c2spanA.text = "INTRODUCTION" := hclean
  have hf : List.filter (fun s => decide (s.page = 0 + 1)) [c2spanA, c2spanB]
      = [c2spanA, c2spanB] := by decide
  have hr : List.range 1 = [0] := rfl
  unfold detectHeadings
  simp only [hr, List.map_cons, List.map_nil, List.flatten, hf, List.append_nil]
  simp only [headingScan, e1, e2, e3, e4, e5, e6, e7, e8, Bool.false_or, Bool.or_false,
    Bool.or_self, if_true, if_false, LocalizedText.single, LocalizedText.set,
    Bool.false_eq_true]
  decide

/-- C2 (amended): on the Scenario 1 document the median body size is 11, not
the fallback 12 — the size-11 body span lies inside the [8, 14] band — and,
provided language detection classifies INTRODUCTION as en and word
segmentation leaves it whole, the title is en INTRODUCTION and the outline
is exactly one H1 heading with text en INTRODUCTION (upper case preserved:
the English cleanup only reflows spacing) on page 1. -/
theorem c2_scenario (env : Env)
    (hdet : detect_language env "INTRODUCTION" = Lang.en)
    (hclean : clean_english env "INTRODUCTION" = "INTRODUCTION") :
    (extract_document_info env (some c2doc)).title = { en := some "INTRODUCTION" } ∧
    (extract_document_info env (some c2doc)).outline =
      [{ level := HLevel.H1, text := { en := some "INTRODUCTION" }, page := 1 }] ∧
    medianBodyFontSize (bodyFontSizes (collectSpans c2doc)) = 11 := by
  have hspans : collectSpans c2doc = [c2spanA, c2spanB] := by decide
  have hnp : c2doc.pages.length = 1 := rfl
  have hmed : medianBodyFontSize (bodyFontSizes [c2spanA, c2spanB]) = 11 := by decide
  unfold extract_document_info
  simp only [hspans, hnp, hmed]
  refine ⟨?_, ?_, by decide⟩
  · have hX : (titleScan (List.filter
        (fun s => decide (s.page = 1) && !detect_junk_candidates [c2spanA, c2spanB] 1 s.text)
        [c2spanA, c2spanB])).2 = ["INTRODUCTION"] := by decide
    rw [hX]
    have hd : (["INTRODUCTION"] : List String).dedup = ["INTRODUCTION"] := by decide
    simp only [buildTitle, hd, List.foldl_cons, List.foldl_nil, hdet, hclean,
      if_true, LocalizedText.set]
  · rw [detectHeadings_c2 env hdet hclean]
    decide

/-- C2 witness: the general scenario theorem applied at the concrete
environment env0, whose detector classifies INTRODUCTION as en and whose
splitter keeps it whole. -/
theorem c2_scenario_witness :
    detect_language env0 "INTRODUCTION" = Lang.en ∧
    clean_english env0 "INTRODUCTION" = "INTRODUCTION" ∧
    (extract_document_info env0 (some c2doc)).title = { en := some "INTRODUCTION" } :=
  ⟨by decide, by decide, (c2_scenario env0 (by decide) (by decide)).1⟩

/-- C2 counterexample: on the Scenario 1 document the computed median body
size is 11, not the claimed fallback 12, and the single outline entry keeps
the text INTRODUCTION, not the claimed Introduction. -/
theorem c2_counterexample :
    medianBodyFontSize (bodyFontSizes (collectSpans c2doc)) = 11 ∧ (11 : ℚ) ≠ 12 ∧
    (extract_document_info env0 (some c2doc)).outline =
      [{ level := HLevel.H1, text := { en := some "INTRODUCTION" }, page := 1 }] ∧
    ({ en := some "INTRODUCTION" } : LocalizedText) ≠ { en := some "Introduction" } := by
  decide

/-! Claim C3: heading levels are monotonic with font size. -/

theorem sizes_nonneg_of_mem (hl : List PendingHeading)
    (hpos : ∀ h ∈ hl, 0 ≤ h.size) (x : ℚ)
    (hx : x ∈ ((hl.map (fun h => h.size)).dedup).insertionSort (fun a b => b ≤ a)) :
    0 ≤ x := by
  rw [List.mem_insertionSort, List.mem_dedup] at hx
  obtain ⟨h, hh, rfl⟩ := List.mem_map.1 hx
  exact hpos h hh

/-- C3: after level assignment from the sorted distinct candidate sizes, for
every H1/H2 pair the H1 size is at least 0.95 times the H2 size, and for
every H2/H3 pair the H2 size is at least 0.95 times the H3 size (sizes are
nonnegative, as every font size delivered by the layout provider is). -/
theorem c3_level_monotonic (hl : List PendingHeading)
    (hpos : ∀ h ∈ hl, 0 ≤ h.size) :
    ∀ a ∈ assignLevels hl, ∀ b ∈ assignLevels hl,
      (a.level = HLevel.H1 → b.level = HLevel.H2 → b.size * (0.95 : ℚ) ≤ a.size) ∧
      (a.level = HLevel.H2 → b.level = HLevel.H3 → b.size * (0.95 : ℚ) ≤ a.size) := by
  intro a ha b hb
  unfold assignLevels at ha hb
  by_cases hnil : hl.isEmpty
  · simp [hnil] at ha
  · simp only [hnil, Bool.false_eq_true, if_false] at ha hb
    obtain ⟨pa, hpa, rfl⟩ := List.mem_map.1 ha
    obtain ⟨pb, hpb, rfl⟩ := List.mem_map.1 hb
    set sizes := ((hl.map (fun h => h.size)).dedup).insertionSort (fun a b => b ≤ a) with hsz
    have hlen : 0 < sizes.length := by
      rw [hsz, List.length_insertionSort, List.length_pos]
      intro hded
      rw [List.dedup_eq_nil, List.map_eq_nil_iff] at hded
      simp [hded] at hnil
    have hs0 : 0 ≤ sizes.getD 0 0 := by
      apply sizes_nonneg_of_mem hl hpos
      rw [hsz]
      rw [List.getD_eq_getElem _ _ (by rw [← hsz]; exact hlen)]
      exact List.getElem_mem _
    constructor
    · intro haL hbL
      simp only at haL hbL
      split_ifs at haL hbL with h1 h2 h3
      simp only
      have h1q : (95 : ℚ) * sizes.getD 0 0 ≤ 100 * pa.size := (qscaleLe_iff _ _ _ _).1 h1
      have h2q : (100 : ℚ) * pb.size < 95 * sizes.getD 0 0 :=
        lt_of_not_le (fun hc => h2 ((qscaleLe_iff _ _ _ _).2 hc))
      linarith
    · intro haL hbL
      simp only at haL hbL
      split_ifs at haL hbL with h1 h2 h3 h4
      simp only
      rw [Bool.and_eq_true, decide_eq_true_eq] at h2
      obtain ⟨hlen1, h2b⟩ := h2
      have hs1 : 0 ≤ sizes.getD 1 0 := by
        apply sizes_nonneg_of_mem hl hpos
        rw [hsz]
        rw [List.getD_eq_getElem _ _ (by rw [← hsz]; exact hlen1)]
        exact List.getElem_mem _
      have h2q : (95 : ℚ) * sizes.getD 1 0 ≤ 100 * pa.size := (qscaleLe_iff _ _ _ _).1 h2b
      have h4q : (100 : ℚ) * pb.size < 95 * sizes.getD 1 0 := by
        refine lt_of_not_le (fun hc => h4 ?_)
        rw [Bool.and_eq_true, decide_eq_true_eq]
        exact ⟨hlen1, (qscaleLe_iff _ _ _ _).2 hc⟩
      linarith

/-- Concrete three-tier heading list: sizes 20, 15, 10 become H1, H2, H3. -/
def c3hl : List PendingHeading :=
  [{ text := { en := some "Alpha" }, page := 1, size := 20 },
   { text := { en := some "Beta" }, page := 1, size := 15 },
   { text := { en := some "Gamma" }, page := 2, size := 10 }]

def c3a : LeveledHeading :=
  { level := HLevel.H1, text := { en := some "Alpha" }, page := 1, size := 20 }

def c3b : LeveledHeading :=
  { level := HLevel.H2, text := { en := some "Beta" }, page := 1, size := 15 }

def c3c : LeveledHeading :=
  { level := HLevel.H3, text := { en := some "Gamma" }, page := 2, size := 10 }

/-- C3 witness: the monotonicity theorem applied to the concrete three-tier
document. -/
theorem c3_witness :
    ((15 : ℚ) * (0.95 : ℚ) ≤ 20) ∧ ((10 : ℚ) * (0.95 : ℚ) ≤ 15) := by
  have hm1 : c3a ∈ assignLevels c3hl := by decide
  have hm2 : c3b ∈ assignLevels c3hl := by decide
  have hm3 : c3c ∈ assignLevels c3hl := by decide
  exact ⟨(c3_level_monotonic c3hl (by decide) c3a hm1 c3b hm2).1 rfl rfl,
    (c3_level_monotonic c3hl (by decide) c3b hm2 c3c hm3).2 rfl rfl⟩

/-! Claim C6: the median body font size. -/

theorem median_mem (l : List ℚ) (h : ¬ l = []) : medianBodyFontSize l ∈ l := by
  unfold medianBodyFontSize
  rw [if_neg (by simpa [List.isEmpty_iff] using h)]
  have hlen : l.length / 2 < (l.insertionSort (fun a b => a ≤ b)).length := by
    rw [List.length_insertionSort]
    exact Nat.div_lt_self (List.length_pos.2 h) one_lt_two
  rw [List.getD_eq_getElem _ _ hlen]
  have hmem : (l.insertionSort (fun a b => a ≤ b))[l.length / 2] ∈
      l.insertionSort (fun a b => a ≤ b) := List.getElem_mem hlen
  rw [List.mem_insertionSort] at hmem
  exact hmem

theorem median_count_lt (l : List ℚ) (h : ¬ l = []) :
    2 * l.countP (fun x => decide (x < medianBodyFontSize l)) ≤ l.length := by
  set s := l.insertionSort (fun a b => a ≤ b) with hs
  have hsort : List.Sorted (fun a b : ℚ => a ≤ b) s := List.sorted_insertionSort _ l
  have hslen : s.length = l.length := by rw [hs, List.length_insertionSort]
  have hlen : l.length / 2 < s.length := by
    rw [hslen]
    exact Nat.div_lt_self (List.length_pos.2 h) one_lt_two
  set k := l.length / 2 with hk
  set m := medianBodyFontSize l with hm
  have hmval : m = s[k] := by
    rw [hm, medianBodyFontSize, if_neg (by simpa [List.isEmpty_iff] using h), ← hs,
      List.getD_eq_getElem _ _ hlen]
  have hperm : l.countP (fun x => decide (x < m)) = s.countP (fun x => decide (x < m)) :=
    ((List.perm_insertionSort _ l).countP_eq _).symm
  have hdrop : s.drop k = s[k] :: s.drop (k + 1) := List.drop_eq_getElem_cons hlen
  have hdrop_sorted : List.Sorted (fun a b : ℚ => a ≤ b) (s.drop k) :=
    List.Pairwise.sublist (List.drop_sublist _ _) hsort
  have hge : ∀ a ∈ s.drop k, m ≤ a := by
    intro a ha
    rw [hdrop] at ha hdrop_sorted
    rw [List.mem_cons] at ha
    rcases ha with ha | ha
    · rw [ha, hmval]
    · exact hmval ▸ List.rel_of_sorted_cons hdrop_sorted a ha
  have hzero : (s.drop k).countP (fun x => decide (x < m)) = 0 := by
    rw [List.countP_eq_zero]
    intro a ha
    simpa using not_lt.2 (hge a ha)
  have hsplitc : s.countP (fun x => decide (x < m))
      = (s.take k).countP (fun x => decide (x < m))
        + (s.drop k).countP (fun x => decide (x < m)) := by
    conv_lhs => rw [← List.take_append_drop k s]
    rw [List.countP_append]
  have htake : (s.take k).countP (fun x => decide (x < m)) ≤ k :=
    le_trans (List.countP_le_length _) (by simp [List.length_take])
  have hcount : l.countP (fun x => decide (x < m)) ≤ k := by
    rw [hperm, hsplitc, hzero]
    omega
  omega

theorem median_count_gt (l : List ℚ) (h : ¬ l = []) :
    2 * l.countP (fun x => decide (medianBodyFontSize l < x)) ≤ l.length := by
  set s := l.insertionSort (fun a b => a ≤ b) with hs
  have hsort : List.Sorted (fun a b : ℚ => a ≤ b) s := List.sorted_insertionSort _ l
  have hslen : s.length = l.length := by rw [hs, List.length_insertionSort]
  have hn : 0 < l.length := List.length_pos.2 h
  have hlen : l.length / 2 < s.length := by
    rw [hslen]
    exact Nat.div_lt_self hn one_lt_two
  set k := l.length / 2 with hk
  set m := medianBodyFontSize l with hm
  have hmval : m = s[k] := by
    rw [hm, medianBodyFontSize, if_neg (by simpa [List.isEmpty_iff] using h), ← hs,
      List.getD_eq_getElem _ _ hlen]
  have hperm : l.countP (fun x => decide (m < x)) = s.countP (fun x => decide (m < x)) :=
    ((List.perm_insertionSort _ l).countP_eq _).symm
  have hdrop : s.drop k = s[k] :: s.drop (k + 1) := List.drop_eq_getElem_cons hlen
  have htake0 : (s.take k).countP (fun x => decide (m < x)) = 0 := by
    rw [List.countP_eq_zero]
    intro a ha
    have hmem : m ∈ s.drop k := by
      rw [hdrop, hmval]
      exact List.mem_cons_self _ _
    have hle := hsort.rel_of_mem_take_of_mem_drop ha hmem
    simpa using not_lt.2 hle
  have hsplitc : s.countP (fun x => decide (m < x))
      = (s.take k).countP (fun x => decide (m < x))
        + (s.drop k).countP (fun x => decide (m < x)) := by
    conv_lhs => rw [← List.take_append_drop k s]
    rw [List.countP_append]
  have hdropc : (s.drop k).countP (fun x => decide (m < x)) ≤ s.length - (k + 1) := by
    have h1 : (decide (m < s[k])) = false := by
      rw [← hmval]
      simp
    rw [hdrop, List.countP_cons, h1]
    simp only [Bool.false_eq_true, if_false, Nat.add_zero]
    exact le_of_le_of_eq (List.countP_le_length _) (List.length_drop _ _)
  have hcount : l.countP (fun x => decide (m < x)) ≤ s.length - (k + 1) := by
    rw [hperm, hsplitc, htake0]
    omega
  omega

/-- C6: the body band is the spans sized in [8, 14] (that is what
bodyFontSizes filters); when the band is empty the median defaults to 12,
and otherwise the computed value is a member of the band satisfying the
order-statistic median property: at most half the band lies strictly below
it and at most half strictly above it. -/
theorem c6_median_body (spans : List SpanInfo) :
    if bodyFontSizes spans = [] then
      medianBodyFontSize (bodyFontSizes spans) = 12
    else
      medianBodyFontSize (bodyFontSizes spans) ∈ bodyFontSizes spans ∧
      2 * ((bodyFontSizes spans).countP
        (fun x => decide (x < medianBodyFontSize (bodyFontSizes spans))))
        ≤ (bodyFontSizes spans).length ∧
      2 * ((bodyFontSizes spans).countP
        (fun x => decide (medianBodyFontSize (bodyFontSizes spans) < x)))
        ≤ (bodyFontSizes spans).length := by
  by_cases hb : bodyFontSizes spans = []
  · rw [if_pos hb, hb]
    rfl
  · rw [if_neg hb]
    exact ⟨median_mem _ hb, median_count_lt _ hb, median_count_gt _ hb⟩

/-! Claim C5: the final ranking is the stable descending sort. -/

instance : IsTotal ScoredSection (fun a b => b.relevance_score ≤ a.relevance_score) :=
  ⟨fun a b => le_total b.relevance_score a.relevance_score⟩

instance : IsTrans ScoredSection (fun a b => b.relevance_score ≤ a.relevance_score) :=
  ⟨fun _ _ _ hab hbc => le_trans hbc hab⟩

theorem orderedInsert_filter_score (c : ℚ) (a : ScoredSection) (l : List ScoredSection) :
    (l.orderedInsert (fun x y => y.relevance_score ≤ x.relevance_score) a).filter
      (fun x => decide (x.relevance_score = c)) =
    if a.relevance_score = c then
      a :: l.filter (fun x => decide (x.relevance_score = c))
    else l.filter (fun x => decide (x.relevance_score = c)) := by
  induction l with
  | nil =>
    rw [List.orderedInsert]
    by_cases hc : a.relevance_score = c
    · rw [if_pos hc]
      simp [hc]
    · rw [if_neg hc]
      simp [hc]
  | cons b t ih =>
    rw [List.orderedInsert]
    by_cases hr : b.relevance_score ≤ a.relevance_score
    · rw [if_pos hr]
      by_cases hc : a.relevance_score = c
      · rw [if_pos hc]
        simp [List.filter_cons, hc]
      · rw [if_neg hc]
        simp [List.filter_cons, hc]
    · rw [if_neg hr]
      by_cases hc : a.relevance_score = c
      · have hbc : ¬ (b.relevance_score = c) := by
          intro hb
          exact hr (le_of_eq (by rw [hb, hc]))
        rw [if_pos hc]
        simp [List.filter_cons, hbc, ih, hc]
      · rw [if_neg hc]
        simp [List.filter_cons, ih, hc]

theorem rankSections_filter (c : ℚ) (l : List ScoredSection) :
    (rankSections l).filter (fun x => decide (x.relevance_score = c)) =
    l.filter (fun x => decide (x.relevance_score = c)) := by
  unfold rankSections
  induction l with
  | nil => rfl
  | cons a t ih =>
    rw [List.insertionSort, orderedInsert_filter_score]
    by_cases hc : a.relevance_score = c
    · rw [if_pos hc, ih, List.filter_cons, if_pos (by simpa using hc)]
    · rw [if_neg hc, ih, List.filter_cons, if_neg (by simpa using hc)]

theorem enumFrom_rank (n : Nat) (L : List ScoredSection) :
    ((List.enumFrom n L).map (fun p => p.1 + 1)) = List.range' (n + 1) L.length := by
  induction L generalizing n with
  | nil => rfl
  | cons a t ih =>
    rw [List.enumFrom, List.map_cons, ih, List.length_cons, List.range'_succ]

/-- C5: the ranked list is sorted by relevance score descending, is a
permutation of the scored list, preserves the relative order of any group of
equal-score sections (the stable-sort property: filtering the output to one
score value gives exactly the input filtered to that value), and the
importance ranks read off the output are 1, 2, ..., n. -/
theorem c5_ranking_stable (l : List ScoredSection) :
    List.Sorted (fun a b => b.relevance_score ≤ a.relevance_score) (rankSections l) ∧
    (rankSections l).Perm l ∧
    (∀ c : ℚ, (rankSections l).filter (fun x => decide (x.relevance_score = c)) =
      l.filter (fun x => decide (x.relevance_score = c))) ∧
    ((buildOutputs (rankSections l)).1.map (fun o => o.importance_rank)
      = List.range' 1 l.length) := by
  refine ⟨List.sorted_insertionSort _ l, List.perm_insertionSort _ l,
    fun c => rankSections_filter c l, ?_⟩
  unfold buildOutputs
  rw [List.map_map]
  have henum : (rankSections l).enum = List.enumFrom 0 (rankSections l) := rfl
  rw [henum]
  have hfun : ((fun o : OutputSection => o.importance_rank) ∘ fun p : Nat × ScoredSection =>
      ({ document := p.2.document, page_number := p.2.page_number,
         section_title := p.2.section_title,
         importance_rank := p.1 + 1 } : OutputSection)) = fun p => p.1 + 1 := rfl
  rw [hfun, enumFrom_rank 0 (rankSections l)]
  unfold rankSections
  rw [List.length_insertionSort]

/-! Claim C8: the two output lists correspond index-for-index. -/

theorem enumFrom_map_pair (n : Nat) (L : List ScoredSection) :
    (List.enumFrom n L).map (fun p => (p.2.document, p.2.page_number)) =
    L.map (fun s => (s.document, s.page_number)) := by
  induction L generalizing n with
  | nil => rfl
  | cons a t ih => rw [List.enumFrom, List.map_cons, List.map_cons, ih]

/-- C8: extracted_sections and sub_section_analysis have the same length,
and at every index they carry the same document id and page number. -/
theorem c8_parallel_outputs (ranked : List ScoredSection) :
    (buildOutputs ranked).1.length = (buildOutputs ranked).2.length ∧
    (buildOutputs ranked).1.map (fun o => (o.document, o.page_number)) =
      (buildOutputs ranked).2.map (fun s => (s.document, s.page_number)) := by
  unfold buildOutputs
  constructor
  · rw [List.length_map, List.length_map, List.enum_length]
  · rw [List.map_map, List.map_map]
    have henum : ranked.enum = List.enumFrom 0 ranked := rfl
    rw [henum]
    have h1 : ((fun o : OutputSection => (o.document, o.page_number)) ∘
        fun p : Nat × ScoredSection =>
          ({ document := p.2.document, page_number := p.2.page_number,
             section_title := p.2.section_title,
             importance_rank := p.1 + 1 } : OutputSection)) =
        fun p : Nat × ScoredSection => (p.2.document, p.2.page_number) := rfl
    have h2 : ((fun s : SubSection => (s.document, s.page_number)) ∘
        fun s : ScoredSection =>
          ({ document := s.document, page_number := s.page_number,
             refined_text := s.refined_text } : SubSection)) =
        fun s : ScoredSection => (s.document, s.page_number) := rfl
    rw [h1, h2]
    exact enumFrom_map_pair 0 ranked

/-! Claim C9: an unreadable document degrades to the empty outline. -/

/-- C9: when the layout provider cannot open the input, extraction returns
the empty Outline (empty title mapping, no headings, no tables); the
embedding is a total function, so the failure never propagates past it. -/
theorem c9_unreadable_empty (env : Env) :
    extract_document_info env none = { title := {}, outline := [], tables := [] } := rfl

/-! Claim C7: the keyword gate. -/

/-- C7: the gate is off by default, and with the gate enabled any entry
whose concatenated excerpt text contains none of the keywords (containment
as the source tests it: case-insensitively, on the lowered text) produces no
section at all — it is dropped before the section list is ever extended,
hence before scoring. -/
theorem c7_keyword_gate :
    ENABLE_KEYWORD_FILTER = false ∧
    ∀ (env : Env) (keywords : List String) (pageTexts : List String)
      (docName : String) (e : R1BEntry),
      is_relevant_section
        (" ".intercalate (entryDicts env pageTexts e).2.values) keywords = false →
      processEntry env true keywords pageTexts docName e = none := by
  refine ⟨rfl, ?_⟩
  intro env kws pts dn e hirr
  unfold processEntry
  simp only [hirr]
  simp

/-- The Scenario 4 entry: a heading whose page text never mentions drug. -/
def c7entry : R1BEntry :=
  { page := 1, text := TitleVal.multi { en := some "Molecules" } }

/-- C7 witness: with keyword list drug, the concrete section about molecules
is dropped entirely, and the compiled-in gate default is off. -/
theorem c7_keyword_gate_witness :
    processEntry env0 true ["drug"] ["Molecules and proteins interact."] "a.pdf" c7entry
      = none ∧
    ENABLE_KEYWORD_FILTER = false :=
  ⟨c7_keyword_gate.2 env0 ["drug"] ["Molecules and proteins interact."] "a.pdf" c7entry
    (by decide), c7_keyword_gate.1⟩

/-! Claim C10: a section's title and excerpt mappings share their keys. -/

theorem LocalizedText.get_set (t : LocalizedText) (l l2 : Lang) (v : String) :
    (t.set l v).get l2 = if l2 = l then some v else t.get l2 := by
  cases l <;> cases l2 <;> simp [LocalizedText.set, LocalizedText.get]

theorem entryDicts_inv (env : Env) (pts : List String) (e : R1BEntry) (lang : Lang) :
    ((entryDicts env pts e).1.get lang).isSome
      = ((entryDicts env pts e).2.get lang).isSome := by
  unfold entryDicts
  obtain ⟨page, tv⟩ := e
  cases tv with
  | multi t =>
    simp only
    have hstep : ∀ (acc : LocalizedText × LocalizedText) (l : Lang),
        (∀ l2, (acc.1.get l2).isSome = (acc.2.get l2).isSome) →
        ∀ l2,
          (((match t.get l with
            | none => acc
            | some title_text =>
              match excerptFor env (pageTextAt pts page) l title_text with
              | none => acc
              | some para => (acc.1.set l title_text, acc.2.set l para)).1.get l2).isSome
          = ((match t.get l with
            | none => acc
            | some title_text =>
              match excerptFor env (pageTextAt pts page) l title_text with
              | none => acc
              | some para => (acc.1.set l title_text, acc.2.set l para)).2.get l2).isSome) := by
      intro acc l hinv l2
      cases htl : t.get l with
      | none => exact hinv l2
      | some tt =>
        simp only
        cases hex : excerptFor env (pageTextAt pts page) l tt with
        | none => exact hinv l2
        | some para =>
          simp only [LocalizedText.get_set]
          by_cases hl : l2 = l
          · rw [if_pos hl, if_pos hl]
            rfl
          · rw [if_neg hl, if_neg hl]
            exact hinv l2
    have base : ∀ l2 : Lang, ((({}, {}) : LocalizedText × LocalizedText).1.get l2).isSome
        = ((({}, {}) : LocalizedText × LocalizedText).2.get l2).isSome := by
      intro l2
      cases l2 <;> rfl
    simp only [List.foldl_cons, List.foldl_nil]
    exact hstep _ Lang.mr (hstep _ Lang.hi (hstep _ Lang.en base)) lang
  | single s =>
    simp only
    by_cases hpt : pageTextAt pts page = ""
    · rw [if_pos hpt]
    · rw [if_neg hpt]
      by_cases hpara : excerptAt (pageTextAt pts page) s = ""
      · rw [if_pos hpara]
      · rw [if_neg hpara]
        simp only [LocalizedText.single, LocalizedText.get_set]
        by_cases hl : lang = detect_language env (pageTextAt pts page)
        · rw [if_pos hl, if_pos hl]
          rfl
        · rw [if_neg hl, if_neg hl]

/-- C10: every section the ranker records carries a title language key
exactly where it carries an excerpt language key, and that shared key set is
non-empty. -/
theorem c10_title_refined_keys (env : Env) (kwE : Bool) (kws : List String)
    (pts : List String) (dn : String) (e : R1BEntry) (s : Section)
    (h : processEntry env kwE kws pts dn e = some s) :
    (∀ lang : Lang, (s.section_title.get lang).isSome = (s.refined_text.get lang).isSome) ∧
    s.refined_text.values ≠ [] := by
  simp only [processEntry] at h
  split_ifs at h with h1 h2
  rw [Option.some_inj] at h
  subst h
  constructor
  · intro lang
    exact entryDicts_inv env pts e lang
  · simpa [List.isEmpty_iff] using h2

def c10entry : R1BEntry :=
  { page := 1, text := TitleVal.multi { en := some "Intro" } }

def c10sec : Section :=
  { document := "a.pdf", page_number := 1, section_title := { en := some "Intro" },
    refined_text := { en := some "Intro text here" } }

/-- C10 witness: a concrete recorded section, with the key sets agreeing at
every language and the shared key set non-empty. -/
theorem c10_title_refined_keys_witness :
    processEntry env0 false [] ["Intro text here"] "a.pdf" c10entry = some c10sec ∧
    (c10sec.section_title.get Lang.en).isSome = (c10sec.refined_text.get Lang.en).isSome ∧
    (c10sec.section_title.get Lang.hi).isSome = (c10sec.refined_text.get Lang.hi).isSome ∧
    (c10sec.section_title.get Lang.mr).isSome = (c10sec.refined_text.get Lang.mr).isSome ∧
    c10sec.refined_text.values ≠ [] := by
  have h : processEntry env0 false [] ["Intro text here"] "a.pdf" c10entry = some c10sec := by
    decide
  have hk := c10_title_refined_keys env0 false [] ["Intro text here"] "a.pdf" c10entry c10sec h
  exact ⟨h, hk.1 Lang.en, hk.1 Lang.hi, hk.1 Lang.mr, hk.2⟩

/-! Claim C4: excerpt anchoring and the drop rule. -/

/-- C4 (amended): for a non-empty page text passing the language gate (page
language equals the entry language, or the language is en), the excerpt is
the trimmed 200-character slice anchored at the found title position, or at
position 0 when the title is absent; a section is recorded exactly when that
trimmed excerpt is non-empty — so a missing title still yields the excerpt
trim(page_text[0:200]), which is non-empty only when the first 200
characters contain a non-whitespace character — and an entry none of whose
languages yields an excerpt is dropped entirely. -/
theorem c4_excerpt_anchoring (env : Env) (pt title : String) (lang : Lang) :
    (pt ≠ "" → langGate env pt lang = true → pyFind pt title = none →
      excerptFor env pt lang title =
        (if pyStrip (pySlice pt 0 (0 + 200)) = "" then none
         else some (pyStrip (pySlice pt 0 (0 + 200))))) ∧
    (∀ i : Nat, pt ≠ "" → langGate env pt lang = true → pyFind pt title = some i →
      excerptFor env pt lang title =
        (if pyStrip (pySlice pt i (i + 200)) = "" then none
         else some (pyStrip (pySlice pt i (i + 200))))) ∧
    (∀ p : String, excerptFor env pt lang title = some p → p ≠ "") ∧
    (∀ (kwE : Bool) (kws pts : List String) (dn : String) (page : Nat) (t : LocalizedText),
      (∀ l s, t.get l = some s → excerptFor env (pageTextAt pts page) l s = none) →
      processEntry env kwE kws pts dn { page := page, text := TitleVal.multi t } = none) := by
  refine ⟨?_, ?_, ?_, ?_⟩
  · intro hne hgate hfind
    unfold excerptFor excerptAt
    rw [if_neg hne, if_pos hgate, hfind]
    simp
  · intro i hne hgate hfind
    unfold excerptFor excerptAt
    rw [if_neg hne, if_pos hgate, hfind]
    simp
  · intro p hp
    unfold excerptFor at hp
    split_ifs at hp with h1 h2
    simp only [] at hp
    split_ifs at hp with h3
    rw [Option.some_inj] at hp
    subst hp
    exact h3
  · intro kwE kws pts dn page t hall
    have hfold : entryDicts env pts { page := page, text := TitleVal.multi t } = ({}, {}) := by
      unfold entryDicts
      simp only
      have hstep : ∀ (acc : LocalizedText × LocalizedText) (l : Lang),
          (match t.get l with
            | none => acc
            | some title_text =>
              match excerptFor env (pageTextAt pts page) l title_text with
              | none => acc
              | some para => (acc.1.set l title_text, acc.2.set l para)) = acc := by
        intro acc l
        cases htl : t.get l with
        | none => rfl
        | some tt =>
          simp only [hall l tt htl]
      simp only [List.foldl_cons, List.foldl_nil, hstep]
    simp [processEntry, hfold, LocalizedText.values]

/-- C4 witness: a title absent from a page text whose head is meaningful
yields the trimmed position-0 excerpt. -/
theorem c4_excerpt_anchoring_witness :
    excerptFor env0 "Hello world" Lang.en "zzz" = some "Hello world" := by
  have h := (c4_excerpt_anchoring env0 "Hello world" "zzz" Lang.en).1
    (by decide) (by decide) (by decide)
  rw [h]
  decide

/-- C4 counterexample: a whitespace-only page text is non-empty and the
title is not found in it, yet the trimmed excerpt is empty, so no section is
recorded and the heading is dropped — against the claim that a non-empty
page text always yields a non-empty excerpt. -/
theorem c4_counterexample :
    (" " : String) ≠ "" ∧ pyFind " " "Heading" = none ∧
    excerptFor env0 " " Lang.en "Heading" = none ∧
    processEntry env0 false [] [" "] "doc.pdf"
      { page := 1, text := TitleVal.multi { en := some "Heading" } } = none := by
  decide

end Pipeline
